import Mathlib

/-!
Verification development for the mixer-pwa license service.

The JavaScript sources under netlify/functions are shallowly embedded here:
pure Lean functions over an explicit datastore state.  Machine integers are
Nat with explicit reduction modulo 2^32 where the source relies on 32-bit
arithmetic (SHA-256).  Timestamps are Nat parameters (the source passes
new Date().toISOString(); only ordering and being set matter).  The Supabase
datastore is modelled as in-memory lists with the unique constraints of the
persisted schema; the datastore is assumed reachable (error branches of the
client library that signal an unreachable datastore are not modelled, which
is the "reachable datastore" posture of the spec).
-/

namespace Mixer

/-! ## Byte-level crypto: SHA-256, HMAC, base64

Embeds the parts of the Node crypto library that generate.js calls:
createHmac("sha256", secret).update(rawBody).digest("base64").
Bytes are Nat < 256; 32-bit words are Nat reduced mod 2^32. -/

def M32 : Nat := 4294967296

def add32 (a b : Nat) : Nat := (a + b) % M32

/-- Right rotation of a 32-bit word. -/
def rotr32 (n x : Nat) : Nat := ((x >>> n) ||| (x <<< (32 - n))) % M32

/-- Bitwise complement on 32 bits (operand below 2^32). -/
def not32 (x : Nat) : Nat := x ^^^ (M32 - 1)

def bigSigma0 (x : Nat) : Nat := rotr32 2 x ^^^ rotr32 13 x ^^^ rotr32 22 x
def bigSigma1 (x : Nat) : Nat := rotr32 6 x ^^^ rotr32 11 x ^^^ rotr32 25 x
def smallSigma0 (x : Nat) : Nat := rotr32 7 x ^^^ rotr32 18 x ^^^ (x >>> 3)
def smallSigma1 (x : Nat) : Nat := rotr32 17 x ^^^ rotr32 19 x ^^^ (x >>> 10)
def chooseF (x y z : Nat) : Nat := (x &&& y) ^^^ (not32 x &&& z)
def majorityF (x y z : Nat) : Nat := (x &&& y) ^^^ (x &&& z) ^^^ (y &&& z)

/-- The 64 SHA-256 round constants of FIPS 180-4, written in decimal. -/
def K256 : List Nat :=
  [1116352408, 1899447441, 3049323471, 3921009573, 961987163, 1508970993,
   2453635748, 2870763221, 3624381080, 310598401, 607225278, 1426881987,
   1925078388, 2162078206, 2614888103, 3248222580, 3835390401, 4022224774,
   264347078, 604807628, 770255983, 1249150122, 1555081692, 1996064986,
   2554220882, 2821834349, 2952996808, 3210313671, 3336571891, 3584528711,
   113926993, 338241895, 666307205, 773529912, 1294757372, 1396182291,
   1695183700, 1986661051, 2177026350, 2456956037, 2730485921, 2820302411,
   3259730800, 3345764771, 3516065817, 3600352804, 4094571909, 275423344,
   430227734, 506948616, 659060556, 883997877, 958139571, 1322822218,
   1537002063, 1747873779, 1955562222, 2024104815, 2227730452, 2361852424,
   2428436474, 2756734187, 3204031479, 3329325298]

/-- Initial SHA-256 hash state. -/
structure Hash8 where
  a : Nat
  b : Nat
  c : Nat
  d : Nat
  e : Nat
  f : Nat
  g : Nat
  h : Nat
deriving DecidableEq, Repr

def initH : Hash8 :=
  ⟨1779033703, 3144134277, 1013904242, 2773480762,
   1359893119, 2600822924, 528734635, 1541459225⟩

/-- One compression round; wk is the pair (schedule word, round constant). -/
def sha256Round (st : Hash8) (wk : Nat × Nat) : Hash8 :=
  let t1 := add32 st.h (add32 (bigSigma1 st.e)
    (add32 (chooseF st.e st.f st.g) (add32 wk.1 wk.2)))
  let t2 := add32 (bigSigma0 st.a) (majorityF st.a st.b st.c)
  ⟨add32 t1 t2, st.a, st.b, st.c, add32 st.d t1, st.e, st.f, st.g⟩

/-- Extend 16 schedule words to 64.  The accumulator holds the words seen so
far most-recent-first; the counter is the number of words still to produce. -/
def extendW : Nat → List Nat → List Nat
  | 0, acc => acc.reverse
  | n + 1, acc =>
      let w := add32 (add32 (smallSigma1 (acc.getD 1 0)) (acc.getD 6 0))
                     (add32 (smallSigma0 (acc.getD 14 0)) (acc.getD 15 0))
      extendW n (w :: acc)

/-- Compress one 512-bit block (given as 16 big-endian words) into the state. -/
def sha256Compress (st : Hash8) (blk : List Nat) : Hash8 :=
  let w := extendW 48 blk.reverse
  let r := (w.zip K256).foldl sha256Round st
  ⟨add32 st.a r.a, add32 st.b r.b, add32 st.c r.c, add32 st.d r.d,
   add32 st.e r.e, add32 st.f r.f, add32 st.g r.g, add32 st.h r.h⟩

/-- Group a byte list into big-endian 32-bit words (length a multiple of 4). -/
def toWords : List Nat → List Nat
  | b0 :: b1 :: b2 :: b3 :: rest =>
      (b0 * 16777216 + b1 * 65536 + b2 * 256 + b3) :: toWords rest
  | _ => []

/-- Big-endian 8-byte encoding of a length in bits. -/
def be64 (n : Nat) : List Nat :=
  [(n >>> 56) % 256, (n >>> 48) % 256, (n >>> 40) % 256, (n >>> 32) % 256,
   (n >>> 24) % 256, (n >>> 16) % 256, (n >>> 8) % 256, n % 256]

/-- FIPS 180-4 padding: 0x80, zeros, 64-bit big-endian bit length. -/
def padBytes (msg : List Nat) : List Nat :=
  let l := msg.length
  let zeros := (64 - ((l + 9) % 64)) % 64
  msg ++ 128 :: List.replicate zeros 0 ++ be64 (8 * l)

/-- Fold the compression function over the word stream, 16 words per block.
The fuel argument (instantiated with the stream length) keeps the recursion
structural so that proofs can evaluate the function inside the kernel. -/
def sha256Go : Nat → Hash8 → List Nat → Hash8
  | _, st, [] => st
  | 0, st, _ => st
  | fuel + 1, st, ws => sha256Go fuel (sha256Compress st (ws.take 16)) (ws.drop 16)

/-- Serialize the hash state as 32 big-endian bytes. -/
def hashBytes (st : Hash8) : List Nat :=
  [st.a, st.b, st.c, st.d, st.e, st.f, st.g, st.h].flatMap fun w =>
    [(w >>> 24) % 256, (w >>> 16) % 256, (w >>> 8) % 256, w % 256]

/-- SHA-256 of a byte list. -/
def sha256 (msg : List Nat) : List Nat :=
  let ws := toWords (padBytes msg)
  hashBytes (sha256Go ws.length initH ws)

/-- HMAC-SHA256 (RFC 2104) with a 64-byte block size. -/
def hmacSha256 (key msg : List Nat) : List Nat :=
  let k0 := if 64 < key.length then sha256 key else key
  let kp := k0 ++ List.replicate (64 - k0.length) 0
  let ipad := kp.map fun b => b ^^^ 54
  let opad := kp.map fun b => b ^^^ 92
  sha256 (opad ++ sha256 (ipad ++ msg))

def b64Alphabet : List Char :=
  "ABCDEFGHIJKLMNOPQRSTUVWXYZabcdefghijklmnopqrstuvwxyz0123456789+/".data

def b64Char (n : Nat) : Char := b64Alphabet.getD n 'A'

/-- Standard base64 with padding, three input bytes per four output chars. -/
def base64Chars : List Nat → List Char
  | [] => []
  | [b0] =>
      [b64Char (b0 >>> 2), b64Char ((b0 &&& 3) <<< 4), '=', '=']
  | [b0, b1] =>
      [b64Char (b0 >>> 2), b64Char (((b0 &&& 3) <<< 4) ||| (b1 >>> 4)),
       b64Char ((b1 &&& 15) <<< 2), '=']
  | b0 :: b1 :: b2 :: rest =>
      b64Char (b0 >>> 2) :: b64Char (((b0 &&& 3) <<< 4) ||| (b1 >>> 4)) ::
      b64Char (((b1 &&& 15) <<< 2) ||| (b2 >>> 6)) :: b64Char (b2 &&& 63) ::
      base64Chars rest

def base64 (bs : List Nat) : String := ⟨base64Chars bs⟩

/-- The model of request/secret strings as bytes.  All concrete strings in
this development are ASCII, where UTF-8 bytes coincide with code points. -/
def strBytes (s : String) : List Nat := s.data.map Char.toNat

/-- base64(HMAC-SHA256(msg, key)) as produced by the Node crypto calls in
generate.js: createHmac("sha256", secret).update(body).digest("base64"). -/
def hmacBase64 (key msg : List Nat) : String := base64 (hmacSha256 key msg)

/-! ## Data model

The persisted schema: licenses(key PK, status, plan, max_devices,
order_id UNIQUE NULLABLE, email, created_at) and activations(license_key,
device_id, active, first_activated, last_seen, UNIQUE(license_key,
device_id)).  verify.js additionally selects an expires_date column. -/

structure License where
  key : String
  status : String
  plan : String
  max_devices : Nat
  order_id : Option Nat
  email : Option String
  expires_date : Option Nat
deriving DecidableEq, Repr

structure Activation where
  license_key : String
  device_id : String
  active : Bool
  first_activated : Nat
  last_seen : Nat
deriving DecidableEq, Repr

structure DB where
  licenses : List License
  activations : List Activation
deriving DecidableEq, Repr

/-- supabase.from("licenses").select(...).eq("key", key): the row for a key. -/
def licByKey (db : DB) (key : String) : Option License :=
  db.licenses.find? fun l => l.key == key

/-- supabase.from("activations").eq("license_key", key).eq("device_id", d).maybeSingle(). -/
def actByPair (db : DB) (key deviceId : String) : Option Activation :=
  db.activations.find? fun a => a.license_key == key && a.device_id == deviceId

/-- The device_id column of all activation rows of a license, as read by
activate.js step 3 and verify.js. -/
def devicesOf (db : DB) (key : String) : List String :=
  (db.activations.filter fun a => a.license_key == key).map fun a => a.device_id

/-- new Set(rows.map(r => r.device_id)).size: distinct devices ever recorded. -/
def distinctDevices (db : DB) (key : String) : Nat :=
  (devicesOf db key).dedup.length

/-! ## Activation Ledger: activate.js and deactivate.js -/

/-- The JSON bodies activate.js can answer with. -/
inductive ActivateResp where
  | missingParams
  | notFound
  | revoked
  | reused
  | deviceLimitReached (maxDevices : Nat)
  | activated
deriving DecidableEq, Repr

/-- netlify/functions/activate.js, POST path, body already parsed.  JS
treats an absent or empty string field as falsy, hence the "" guards. -/
def activate (db : DB) (key deviceId : String) (now : Nat) : ActivateResp × DB :=
  if key = "" ∨ deviceId = "" then (.missingParams, db)
  else
    match licByKey db key with
    | none => (.notFound, db)
    | some lic =>
      if lic.status ≠ "active" then (.revoked, db)
      else
        match actByPair db key deviceId with
        | some _ =>
            (.reused,
             { db with activations := db.activations.map fun a =>
                 if a.license_key == key && a.device_id == deviceId then
                   { a with active := true, last_seen := now }
                 else a })
        | none =>
            let used := distinctDevices db key
            if lic.max_devices ≤ used then (.deviceLimitReached lic.max_devices, db)
            else
              (.activated,
               { db with activations :=
                   db.activations ++ [⟨key, deviceId, true, now, now⟩] })

inductive DeactivateResp where
  | missingParams
  | ok
deriving DecidableEq, Repr

/-- netlify/functions/deactivate.js, POST path: a filtered update that sets
active=false and bumps last_seen; it deletes nothing, and matching zero rows
is not an error. -/
def deactivate (db : DB) (key deviceId : String) (now : Nat) : DeactivateResp × DB :=
  if key = "" ∨ deviceId = "" then (.missingParams, db)
  else
    (.ok,
     { db with activations := db.activations.map fun a =>
         if a.license_key == key && a.device_id == deviceId then
           { a with active := false, last_seen := now }
         else a })

/-! ## License Verifier (read path): the two verify handlers -/

/-- The JS String.prototype.trim() applied by both verify handlers to the
incoming key, modelled for the space character (the concrete inputs of
this development use no other whitespace). -/
def jsTrim (s : String) : String :=
  ⟨((s.data.dropWhile fun c => c == ' ').reverse.dropWhile fun c => c == ' ').reverse⟩

/-- The response of the verify variant that reports device usage
(src/unnamed/part_006, first handler). -/
inductive VerifyLResp where
  | missingKey
  | notFound
  | revoked
  | valid (plan : String) (status : String) (maxDevices : Nat) (devicesUsed : Nat)
deriving DecidableEq, Repr

/-- The verify handler of src/unnamed/part_006 (lines 4-37): read-only;
unknown key answers not_found, non-active status answers revoked, otherwise
the distinct ever-activated device count is reported next to the cap. -/
def verifyLedger (db : DB) (keyRaw : String) : VerifyLResp :=
  let key := jsTrim keyRaw
  if key = "" then .missingKey
  else
    match licByKey db key with
    | none => .notFound
    | some lic =>
      if lic.status ≠ "active" then .revoked
      else .valid lic.plan lic.status lic.max_devices (distinctDevices db key)

/-- Responses of netlify/functions/verify.js, field-for-field with its JSON. -/
structure VerifyNResp where
  status : Nat
  valid : Bool
  reason : Option String
  plan : Option String
deriving DecidableEq, Repr

/-- netlify/functions/verify.js (lines 22-47).  Its .single() call yields a
row only when exactly one row matches and an error object otherwise, which
the handler surfaces as a 500 db_error; a non-active status is reported as
reason "inactive"; an expires_date in the past as "expired"; the valid
answer carries plan (defaulted to "full" when empty) and no device counts. -/
def verifyNetlify (db : DB) (keyRaw : String) (now : Nat) : VerifyNResp :=
  let key := jsTrim keyRaw
  if key = "" then ⟨400, false, some "missing_key", none⟩
  else
    match db.licenses.filter (fun l => l.key == key) with
    | [lic] =>
      if lic.status ≠ "active" then ⟨200, false, some "inactive", none⟩
      else
        match lic.expires_date with
        | some e =>
            if e < now then ⟨200, false, some "expired", none⟩
            else ⟨200, true, none, some (if lic.plan = "" then "full" else lic.plan)⟩
        | none => ⟨200, true, none, some (if lic.plan = "" then "full" else lic.plan)⟩
    | _ => ⟨500, false, some "db_error", none⟩

/-! ## License Registry: netlify/functions/generate.js

ensureLicenseForOrder works against two remote stores: the WooCommerce
order (its _license_key meta field) and the Supabase licenses table, which
carries a unique index on order_id.  For the issuance claims the state is
abstracted to one order: the meta value of that order and the licenses row
owned by that order_id (the unique index allows at most one such row).  An
insert counter makes "rows inserted" observable. -/

structure GenState where
  wooMeta : Option String
  lic : Option String
  insCount : Nat
deriving DecidableEq, Repr

/-- Result shape of ensureLicenseForOrder: {reused, license} or {error}. -/
structure GenResult where
  reused : Bool
  license : Option String
  error : Option String
deriving DecidableEq, Repr

/-- sbInsertLicense under the unique index on order_id: the insert commits
only when no row for this order exists, otherwise it reports the
unique_violation the code detects from the PostgREST error text. -/
def sbInsertLicense (cand : String) (s : GenState) : Bool × GenState :=
  match s.lic with
  | some _ => (false, s)
  | none => (true, { s with lic := some cand, insCount := s.insCount + 1 })

/-- wooPostMeta(orderId, "_license_key", k). -/
def writeMetaSt (k : String) (s : GenState) : GenState :=
  { s with wooMeta := some k }

/-- ensureLicenseForOrder (generate.js lines 85-131) as one sequential call:
meta short-circuit, select by order_id, insert of the fresh candidate key,
and on a unique violation the re-read of the winning row (including the
fall-through that returns the unstored candidate when even the re-read
finds nothing). -/
def ensureLicenseForOrder (cand : String) (s0 : GenState) : GenResult × GenState :=
  match s0.wooMeta with
  | some m => (⟨true, some m, none⟩, s0)
  | none =>
    match s0.lic with
    | some k => (⟨true, some k, none⟩, writeMetaSt k s0)
    | none =>
      let (inserted, s1) := sbInsertLicense cand s0
      if inserted then (⟨false, some cand, none⟩, writeMetaSt cand s1)
      else
        match s1.lic with
        | some k => (⟨true, some k, none⟩, writeMetaSt k s1)
        | none => (⟨false, some cand, none⟩, writeMetaSt cand s1)

/-! ### Interleaved issuance: two concurrent deliveries of one order

Each remote call of ensureLicenseForOrder is an atomic step; between any two
steps the other delivery may run.  The program counter records the next
remote call of the handler. -/

inductive PC where
  | start
  | select
  | insert
  | reselect
  | writeMeta (k : String) (reused : Bool)
  | note (k : String) (reused : Bool)
  | done (r : GenResult)
deriving DecidableEq, Repr

/-- One atomic step of ensureLicenseForOrder with candidate key cand. -/
def stepP (cand : String) (p : PC) (s : GenState) : PC × GenState :=
  match p with
  | .start =>
      match s.wooMeta with
      | some m => (.done ⟨true, some m, none⟩, s)
      | none => (.select, s)
  | .select =>
      match s.lic with
      | some k => (.writeMeta k true, s)
      | none => (.insert, s)
  | .insert =>
      match s.lic with
      | some _ => (.reselect, s)
      | none => (.writeMeta cand false, { s with lic := some cand, insCount := s.insCount + 1 })
  | .reselect =>
      match s.lic with
      | some k => (.writeMeta k true, s)
      | none => (.writeMeta cand false, s)
  | .writeMeta k r => (.note k r, writeMetaSt k s)
  | .note k r => (.done ⟨r, some k, none⟩, s)
  | .done r => (.done r, s)

/-- A configuration of the race: both program counters and the shared state. -/
structure Cfg where
  p1 : PC
  p2 : PC
  st : GenState
deriving DecidableEq, Repr

/-- Run the delivery chosen by the scheduler for one atomic step. -/
def stepCfg (c1 c2 : String) (cfg : Cfg) (b : Bool) : Cfg :=
  if b then
    let (p, s) := stepP c1 cfg.p1 cfg.st
    ⟨p, cfg.p2, s⟩
  else
    let (p, s) := stepP c2 cfg.p2 cfg.st
    ⟨cfg.p1, p, s⟩

/-- Run an arbitrary interleaving schedule. -/
def runSched (c1 c2 : String) (sched : List Bool) (cfg : Cfg) : Cfg :=
  sched.foldl (stepCfg c1 c2) cfg

/-- Both deliveries pending on a fresh order. -/
def initCfg : Cfg := ⟨.start, .start, ⟨none, none, 0⟩⟩

/-! ### Full-table issuance model for the key generator claims

The licenses table with its two unique constraints (key primary key,
order_id unique): the PostgREST error text of either violation matches the
/duplicate key|unique/ test of sbInsertLicense, so generate.js treats both
as its unique_violation code. -/

/-- Insert against the full table; reports a unique violation when the
candidate key or the order_id is already taken. -/
def sbInsertLicenseDB (row : License) (db : List License) : Bool × List License :=
  if db.any (fun l => l.key == row.key) ∨ db.any (fun l => l.order_id == row.order_id) then
    (false, db)
  else (true, db ++ [row])

/-- sbSelectLicenseByOrder over the full table. -/
def licByOrder (db : List License) (orderId : Nat) : Option License :=
  db.find? fun l => l.order_id == some orderId

/-- ensureLicenseForOrder over the full licenses table, for an order whose
Woo meta does not yet hold a key.  makeKey (generate.js lines 134-138) draws
one random candidate with no registry lookup; the candidate is the cand
argument here. -/
def ensureLicenseForOrderDB (orderId : Nat) (cand : String) (db : List License) :
    GenResult × List License :=
  match licByOrder db orderId with
  | some l => (⟨true, some l.key, none⟩, db)
  | none =>
    let row : License := ⟨cand, "active", "full", 2, some orderId, none, none⟩
    let (inserted, db1) := sbInsertLicenseDB row db
    if inserted then (⟨false, some cand, none⟩, db1)
    else
      match licByOrder db1 orderId with
      | some l => (⟨true, some l.key, none⟩, db1)
      | none => (⟨false, some cand, none⟩, db1)

/-- makeUniqueKey of src/unnamed/part_002 (lines 34-42): up to 6 candidates,
each checked against the licenses table and accepted only when free; the
candidate stream ks models the successive makeKey() draws, i is the index
of the next draw.  It reads the table and never writes it. -/
def makeUniqueKeyAux (ks : Nat → String) (db : List License) : Nat → Nat → Except String String
  | _, 0 => .error "could_not_generate_unique_key"
  | i, n + 1 =>
      let key := ks i
      if db.any (fun l => l.key == key) then makeUniqueKeyAux ks db (i + 1) n
      else .ok key

def makeUniqueKey (ks : Nat → String) (db : List License) : Except String String :=
  makeUniqueKeyAux ks db 0 6

/-! ### The webhook handler: signature gate and POST pipeline -/

/-- generate.js lines 31-46: the signature header is truthy-tested first
(absent or empty fails), then compared with == against the base64 HMAC of
the raw body under WC_WEBHOOK_SECRET, which an unset environment variable
silently turns into the empty-string key (WC_WEBHOOK_SECRET || ""). -/
def generateVerify (secretEnv : Option String) (sigHeader : Option String) (body : String) : Bool :=
  match sigHeader with
  | none => false
  | some s =>
      if s = "" then false
      else hmacBase64 (strBytes (secretEnv.getD "")) (strBytes body) == s

/-- The JSON response of the generate.js POST path. -/
structure GenHttpResp where
  status : Nat
  ok : Bool
  ignored : Option String
  skipped : Bool
  reason : Option String
  reused : Option Bool
  license : Option String
deriving DecidableEq, Repr

/-- The order fields generate.js reads out of the parsed webhook body. -/
structure WooPayload where
  id : Nat
  status : String
deriving DecidableEq, Repr

/-- generate.js POST path (lines 29-82): signature gate, JSON.parse (the
parse argument stands for it; none models a parse failure, and an id of 0
models the falsy Number conversions), the status guard, then
ensureLicenseForOrder.  Every answer is HTTP 200 so that WooCommerce stops
retrying. -/
def generateHandlerPost (parse : String → Option WooPayload) (cand : String)
    (secretEnv : Option String) (sigHeader : Option String) (body : String)
    (s : GenState) : GenHttpResp × GenState :=
  if generateVerify secretEnv sigHeader body = false then
    (⟨200, true, some "bad_signature", false, none, none, none⟩, s)
  else
    match parse body with
    | none => (⟨200, true, some "bad_json", false, none, none, none⟩, s)
    | some p =>
      if p.id = 0 ∨ (p.status ≠ "processing" ∧ p.status ≠ "completed") then
        (⟨200, true, none, true, some "status_not_ready_or_no_id", none, none⟩, s)
      else
        let (r, s1) := ensureLicenseForOrder cand s
        (⟨200, true, none, false, none, some r.reused, r.license⟩, s1)

/-! ## Supporting lemmas -/

/-- Filtering on license_key and projecting device_id is unchanged by a map
that preserves both columns (the in-place updates of activate/deactivate). -/
lemma devices_map_pres (g : Activation → Activation)
    (h1 : ∀ a, (g a).license_key = a.license_key)
    (h2 : ∀ a, (g a).device_id = a.device_id) (k : String) :
    ∀ l : List Activation,
      ((l.map g).filter fun a => a.license_key == k).map (fun a => a.device_id)
        = (l.filter fun a => a.license_key == k).map fun a => a.device_id := by
  intro l
  induction l with
  | nil => rfl
  | cons a t ih =>
      by_cases hk : (a.license_key == k) = true
      · simp [List.filter_cons, h1, h2, hk, ih]
      · simp [List.filter_cons, h1, hk, ih]

lemma distinctDevices_map (db : DB) (g : Activation → Activation)
    (h1 : ∀ a, (g a).license_key = a.license_key)
    (h2 : ∀ a, (g a).device_id = a.device_id) (k : String) :
    distinctDevices { db with activations := db.activations.map g } k
      = distinctDevices db k := by
  unfold distinctDevices devicesOf
  rw [devices_map_pres g h1 h2 k]

/-- A filtered in-place update is the identity when nothing matches. -/
lemma map_ite_id_of_no_match (p : Activation → Bool) (g : Activation → Activation) :
    ∀ l : List Activation, (∀ a ∈ l, p a = false) →
      (l.map fun a => if p a then g a else a) = l := by
  intro l
  induction l with
  | nil => intro _; rfl
  | cons a t ih =>
      intro h
      have ha := h a (by simp)
      simp only [List.map_cons, ha, Bool.false_eq_true, if_false]
      rw [ih fun x hx => h x (by simp [hx])]

/-- Appending one activation row extends the device column of exactly the
license the row belongs to. -/
lemma devicesOf_append (db : DB) (row : Activation) (k : String) :
    devicesOf { db with activations := db.activations ++ [row] } k
      = devicesOf db k ++ (if row.license_key == k then [row.device_id] else []) := by
  unfold devicesOf
  rw [List.filter_append]
  by_cases h : (row.license_key == k) = true
  · simp [h]
  · simp [h]

lemma dedup_length_append_le (l : List String) (d : String) :
    (l ++ [d]).dedup.length ≤ l.dedup.length + 1 := by
  rw [← List.card_toFinset, ← List.card_toFinset, List.toFinset_append]
  refine le_trans (Finset.card_union_le _ _) ?_
  simp

/-- A filtered in-place update that rewrites the same fields twice equals
the update applied once. -/
lemma map_ite_idem (p : Activation → Bool) (g : Activation → Activation)
    (hp : ∀ a, p (g a) = p a) (hg : ∀ a, g (g a) = g a) :
    ∀ l : List Activation,
      ((l.map fun a => if p a then g a else a).map fun a => if p a then g a else a)
        = l.map fun a => if p a then g a else a := by
  intro l
  induction l with
  | nil => rfl
  | cons a t ih =>
      by_cases hpa : p a = true
      · simp [hpa, hp, hg, ih]
      · simp [hpa, ih]

/-! ## C9: deactivate -/

/-- C9: deactivate(key, deviceId) on a reachable datastore always returns
ok:true: an existing row is set inactive with last_seen bumped, no row is
ever deleted, a missing row leaves the store untouched, and repeating the
call changes nothing more — the operation never blocks the caller. -/
theorem c9_deactivate_always_ok (db : DB) (key deviceId : String) (now : Nat)
    (hk : key ≠ "") (hd : deviceId ≠ "") :
    (deactivate db key deviceId now).1 = .ok
    ∧ (deactivate db key deviceId now).2.licenses = db.licenses
    ∧ (deactivate db key deviceId now).2.activations
        = db.activations.map (fun a =>
            if a.license_key == key && a.device_id == deviceId then
              { a with active := false, last_seen := now } else a)
    ∧ (deactivate db key deviceId now).2.activations.length = db.activations.length
    ∧ (actByPair db key deviceId = none → (deactivate db key deviceId now).2 = db)
    ∧ deactivate (deactivate db key deviceId now).2 key deviceId now
        = deactivate db key deviceId now := by
  have hguard : ¬(key = "" ∨ deviceId = "") := by simp [hk, hd]
  refine ⟨?_, ?_, ?_, ?_, ?_, ?_⟩
  · simp [deactivate, hguard]
  · simp [deactivate, hguard]
  · simp [deactivate, hguard]
  · simp [deactivate, hguard]
  · intro hnone
    have hall := List.find?_eq_none.mp hnone
    simp only [deactivate, hguard, if_false]
    rw [map_ite_id_of_no_match _ _ _ fun a ha => by
      simpa using hall a ha]
  · simp only [deactivate, hguard, if_false]
    rw [map_ite_idem (fun a => a.license_key == key && a.device_id == deviceId)
        (fun a => { a with active := false, last_seen := now })
        (fun _ => rfl) (fun _ => rfl)]

/-- Witness for C9 at a concrete store: one matching row, one unrelated row. -/
theorem c9_witness :
    (deactivate ⟨[], [⟨"K", "A", true, 1, 1⟩, ⟨"L", "B", true, 2, 2⟩]⟩ "K" "A" 9).1 = .ok
    ∧ (deactivate ⟨[], [⟨"K", "A", true, 1, 1⟩, ⟨"L", "B", true, 2, 2⟩]⟩ "K" "A" 9).2.licenses = []
    ∧ (deactivate ⟨[], [⟨"K", "A", true, 1, 1⟩, ⟨"L", "B", true, 2, 2⟩]⟩ "K" "A" 9).2.activations
        = ([⟨"K", "A", true, 1, 1⟩, ⟨"L", "B", true, 2, 2⟩] : List Activation).map (fun a =>
            if a.license_key == "K" && a.device_id == "A" then
              { a with active := false, last_seen := 9 } else a)
    ∧ (deactivate ⟨[], [⟨"K", "A", true, 1, 1⟩, ⟨"L", "B", true, 2, 2⟩]⟩ "K" "A" 9).2.activations.length
        = ([⟨"K", "A", true, 1, 1⟩, ⟨"L", "B", true, 2, 2⟩] : List Activation).length
    ∧ (actByPair ⟨[], [⟨"K", "A", true, 1, 1⟩, ⟨"L", "B", true, 2, 2⟩]⟩ "K" "A" = none →
        (deactivate ⟨[], [⟨"K", "A", true, 1, 1⟩, ⟨"L", "B", true, 2, 2⟩]⟩ "K" "A" 9).2
          = ⟨[], [⟨"K", "A", true, 1, 1⟩, ⟨"L", "B", true, 2, 2⟩]⟩)
    ∧ deactivate (deactivate ⟨[], [⟨"K", "A", true, 1, 1⟩, ⟨"L", "B", true, 2, 2⟩]⟩ "K" "A" 9).2 "K" "A" 9
        = deactivate ⟨[], [⟨"K", "A", true, 1, 1⟩, ⟨"L", "B", true, 2, 2⟩]⟩ "K" "A" 9 :=
  c9_deactivate_always_ok ⟨[], [⟨"K", "A", true, 1, 1⟩, ⟨"L", "B", true, 2, 2⟩]⟩ "K" "A" 9
    (by decide) (by decide)

/-! ## C4: reactivation -/

/-- C4: reactivating an already-registered device on an active license
answers reused, rewrites only the active flag and last_seen of the matching
row (first_activated untouched), and consults no device count — there is no
capacity hypothesis, and the distinct-device count is unchanged. -/
theorem c4_reactivation_idempotent (db : DB) (key deviceId : String) (now : Nat)
    (lic : License) (row : Activation)
    (hk : key ≠ "") (hd : deviceId ≠ "")
    (hlic : licByKey db key = some lic) (hstatus : lic.status = "active")
    (hrow : actByPair db key deviceId = some row) :
    activate db key deviceId now
      = (.reused,
         { db with activations := db.activations.map fun a =>
             if a.license_key == key && a.device_id == deviceId then
               { a with active := true, last_seen := now } else a })
    ∧ distinctDevices (activate db key deviceId now).2 key = distinctDevices db key := by
  have hguard : ¬(key = "" ∨ deviceId = "") := by simp [hk, hd]
  have heq : activate db key deviceId now
      = (.reused,
         { db with activations := db.activations.map fun a =>
             if a.license_key == key && a.device_id == deviceId then
               { a with active := true, last_seen := now } else a }) := by
    simp [activate, hguard, hlic, hstatus, hrow]
  refine ⟨heq, ?_⟩
  rw [heq]
  exact distinctDevices_map db _ (fun a => by split <;> rfl) (fun a => by split <;> rfl) key

/-- Witness for C4: the license cap is 0, two devices are already recorded
(count 2 exceeds the cap), and reactivation still succeeds with reused and
an unchanged first_activated. -/
theorem c4_witness :
    distinctDevices ⟨[⟨"K", "active", "full", 0, none, none, none⟩],
        [⟨"K", "A", false, 1, 1⟩, ⟨"K", "B", true, 2, 2⟩]⟩ "K" = 2
    ∧ (licByKey ⟨[⟨"K", "active", "full", 0, none, none, none⟩],
        [⟨"K", "A", false, 1, 1⟩, ⟨"K", "B", true, 2, 2⟩]⟩ "K").map License.max_devices = some 0
    ∧ (activate ⟨[⟨"K", "active", "full", 0, none, none, none⟩],
          [⟨"K", "A", false, 1, 1⟩, ⟨"K", "B", true, 2, 2⟩]⟩ "K" "A" 9
        = (.reused,
           { licenses := [⟨"K", "active", "full", 0, none, none, none⟩],
             activations := ([⟨"K", "A", false, 1, 1⟩, ⟨"K", "B", true, 2, 2⟩] : List Activation).map
               fun a =>
                 if a.license_key == "K" && a.device_id == "A" then
                   { a with active := true, last_seen := 9 } else a })
        ∧ distinctDevices (activate ⟨[⟨"K", "active", "full", 0, none, none, none⟩],
            [⟨"K", "A", false, 1, 1⟩, ⟨"K", "B", true, 2, 2⟩]⟩ "K" "A" 9).2 "K"
          = distinctDevices ⟨[⟨"K", "active", "full", 0, none, none, none⟩],
              [⟨"K", "A", false, 1, 1⟩, ⟨"K", "B", true, 2, 2⟩]⟩ "K") :=
  ⟨by decide, by decide,
   c4_reactivation_idempotent _ "K" "A" 9 ⟨"K", "active", "full", 0, none, none, none⟩
     ⟨"K", "A", false, 1, 1⟩ (by decide) (by decide) (by decide) rfl (by decide)⟩

/-! ## C1: the device-cap invariant -/

/-- The primary-key constraint of the licenses table: keys are unique. -/
abbrev KeysNodup (db : DB) : Prop := (db.licenses.map fun l => l.key).Nodup

/-- The central invariant: no license has more distinct devices ever
recorded than its allowance. -/
abbrev DeviceCapInv (db : DB) : Prop :=
  ∀ L ∈ db.licenses, distinctDevices db L.key ≤ L.max_devices

/-- An arbitrary sequence of activate calls (key, deviceId, timestamp). -/
def runActivates (db : DB) (calls : List (String × String × Nat)) : DB :=
  calls.foldl (fun d c => (activate d c.1 c.2.1 c.2.2).2) db

lemma activate_licenses (db : DB) (key deviceId : String) (now : Nat) :
    (activate db key deviceId now).2.licenses = db.licenses := by
  unfold activate
  split
  · rfl
  · split
    · rfl
    · split
      · rfl
      · split
        · rfl
        · dsimp only
          split
          · rfl
          · rfl

lemma activate_cap_preserved (db : DB) (key deviceId : String) (now : Nat)
    (hwf : KeysNodup db) (hinv : DeviceCapInv db) :
    DeviceCapInv (activate db key deviceId now).2 := by
  unfold activate
  split
  · exact hinv
  · split
    · exact hinv
    · next lic hlic =>
      split
      · exact hinv
      · split
        · -- reactivation: an in-place update that touches neither key column
          intro L hL
          rw [distinctDevices_map db _ (fun a => by split <;> rfl) (fun a => by split <;> rfl)]
          exact hinv L hL
        · next hnone =>
          dsimp only
          split
          · exact hinv
          · next hcap =>
            -- a fresh row for this license was appended
            intro L hL
            have hLmem : L ∈ db.licenses := hL
            have hdev := devicesOf_append db ⟨key, deviceId, true, now, now⟩ L.key
            by_cases hkey : L.key = key
            · -- the capped license itself: the guard bounds the new count
              have hlicmem : lic ∈ db.licenses := List.mem_of_find?_eq_some hlic
              have hlickey : lic.key = key := by
                have := List.find?_some hlic
                simpa using this
              have hLlic : L = lic := by
                have hinj := List.inj_on_of_nodup_map hwf
                exact hinj hLmem hlicmem (by rw [hlickey, hkey])
              unfold distinctDevices
              rw [hdev]
              simp only [hkey, beq_self_eq_true, if_true]
              refine le_trans (dedup_length_append_le _ _) ?_
              have hlt : distinctDevices db key < lic.max_devices := Nat.lt_of_not_le hcap
              rw [hLlic]
              exact hlt
            · -- any other license: its device column is unchanged
              unfold distinctDevices
              rw [hdev]
              have hne : (key == L.key) = false := beq_eq_false_iff_ne.mpr fun h => hkey h.symm
              simp only [hne, Bool.false_eq_true, if_false, List.append_nil]
              exact hinv L hLmem

/-- C1: after any sequence of activate calls on a store whose licenses have
unique keys and which satisfies the device-cap invariant, the invariant
still holds — the distinct ever-recorded device count of every license
stays within its max_devices, the cap being checked exactly when a device
without a row would be inserted. -/
theorem c1_device_cap_invariant (db : DB) (calls : List (String × String × Nat))
    (hwf : KeysNodup db) (hinv : DeviceCapInv db) :
    DeviceCapInv (runActivates db calls) := by
  induction calls generalizing db with
  | nil => exact hinv
  | cons c t ih =>
      refine ih _ ?_ (activate_cap_preserved db c.1 c.2.1 c.2.2 hwf hinv)
      show ((activate db c.1 c.2.1 c.2.2).2.licenses.map _).Nodup
      rw [activate_licenses]
      exact hwf

/-- Witness for C1: a one-device license receives four calls — two distinct
new devices, one repeat, one more fresh device — and never exceeds its cap. -/
theorem c1_witness :
    KeysNodup ⟨[⟨"K", "active", "full", 1, none, none, none⟩], []⟩
    ∧ DeviceCapInv ⟨[⟨"K", "active", "full", 1, none, none, none⟩], []⟩
    ∧ DeviceCapInv (runActivates ⟨[⟨"K", "active", "full", 1, none, none, none⟩], []⟩
        [("K", "a", 0), ("K", "b", 1), ("K", "a", 2), ("K", "c", 3)]) :=
  ⟨by decide, by decide,
   c1_device_cap_invariant ⟨[⟨"K", "active", "full", 1, none, none, none⟩], []⟩
     [("K", "a", 0), ("K", "b", 1), ("K", "a", 2), ("K", "c", 3)] (by decide) (by decide)⟩

/-! ## C3: capacity is consumed, not borrowed -/

/-- A freshly issued two-device license row. -/
def licRow (k : String) : License := ⟨k, "active", "full", 2, none, none, none⟩

/-- The freshly issued license with an empty activation ledger. -/
def freshLicense (k : String) : DB := ⟨[licRow k], []⟩

/-- C3: on a fresh max_devices=2 license, two distinct devices activate as
new; both then deactivate (rows kept, merely set inactive); any third
distinct device is rejected with device_limit_reached carrying
max_devices=2 and nothing is inserted — deactivation freed no capacity. -/
theorem c3_capacity_is_consumable (k d1 d2 d3 : String) (t1 t2 t3 t4 t5 : Nat)
    (hk : k ≠ "") (h1 : d1 ≠ "") (h2 : d2 ≠ "") (h3 : d3 ≠ "")
    (h12 : d1 ≠ d2) (h31 : d3 ≠ d1) (h32 : d3 ≠ d2) :
    activate (freshLicense k) k d1 t1
      = (.activated, ⟨[licRow k], [⟨k, d1, true, t1, t1⟩]⟩)
    ∧ activate ⟨[licRow k], [⟨k, d1, true, t1, t1⟩]⟩ k d2 t2
      = (.activated, ⟨[licRow k], [⟨k, d1, true, t1, t1⟩, ⟨k, d2, true, t2, t2⟩]⟩)
    ∧ deactivate ⟨[licRow k], [⟨k, d1, true, t1, t1⟩, ⟨k, d2, true, t2, t2⟩]⟩ k d1 t3
      = (.ok, ⟨[licRow k], [⟨k, d1, false, t1, t3⟩, ⟨k, d2, true, t2, t2⟩]⟩)
    ∧ deactivate ⟨[licRow k], [⟨k, d1, false, t1, t3⟩, ⟨k, d2, true, t2, t2⟩]⟩ k d2 t4
      = (.ok, ⟨[licRow k], [⟨k, d1, false, t1, t3⟩, ⟨k, d2, false, t2, t4⟩]⟩)
    ∧ activate ⟨[licRow k], [⟨k, d1, false, t1, t3⟩, ⟨k, d2, false, t2, t4⟩]⟩ k d3 t5
      = (.deviceLimitReached 2,
         ⟨[licRow k], [⟨k, d1, false, t1, t3⟩, ⟨k, d2, false, t2, t4⟩]⟩) := by
  have hb12 : (d1 == d2) = false := beq_eq_false_iff_ne.mpr h12
  have hb21 : (d2 == d1) = false := beq_eq_false_iff_ne.mpr (Ne.symm h12)
  have hb13 : (d1 == d3) = false := beq_eq_false_iff_ne.mpr (Ne.symm h31)
  have hb23 : (d2 == d3) = false := beq_eq_false_iff_ne.mpr (Ne.symm h32)
  refine ⟨?_, ?_, ?_, ?_, ?_⟩
  · simp [activate, licByKey, actByPair, distinctDevices, devicesOf, freshLicense, licRow,
      hk, h1]
  · simp [activate, licByKey, actByPair, distinctDevices, devicesOf, licRow,
      hk, h2, hb12]
  · simp [deactivate, licRow, hk, h1, hb21, Ne.symm h12]
  · simp [deactivate, licRow, hk, h2, hb12, h12]
  · simp [activate, licByKey, actByPair, distinctDevices, devicesOf, licRow,
      hk, h3, hb13, hb23, List.dedup_cons_of_not_mem, h12]

/-- Witness for C3 with concrete devices devA, devB, devC. -/
theorem c3_witness :
    activate (freshLicense "K") "K" "devA" 1
      = (.activated, ⟨[licRow "K"], [⟨"K", "devA", true, 1, 1⟩]⟩)
    ∧ activate ⟨[licRow "K"], [⟨"K", "devA", true, 1, 1⟩]⟩ "K" "devB" 2
      = (.activated, ⟨[licRow "K"], [⟨"K", "devA", true, 1, 1⟩, ⟨"K", "devB", true, 2, 2⟩]⟩)
    ∧ deactivate ⟨[licRow "K"], [⟨"K", "devA", true, 1, 1⟩, ⟨"K", "devB", true, 2, 2⟩]⟩ "K" "devA" 3
      = (.ok, ⟨[licRow "K"], [⟨"K", "devA", false, 1, 3⟩, ⟨"K", "devB", true, 2, 2⟩]⟩)
    ∧ deactivate ⟨[licRow "K"], [⟨"K", "devA", false, 1, 3⟩, ⟨"K", "devB", true, 2, 2⟩]⟩ "K" "devB" 4
      = (.ok, ⟨[licRow "K"], [⟨"K", "devA", false, 1, 3⟩, ⟨"K", "devB", false, 2, 4⟩]⟩)
    ∧ activate ⟨[licRow "K"], [⟨"K", "devA", false, 1, 3⟩, ⟨"K", "devB", false, 2, 4⟩]⟩ "K" "devC" 5
      = (.deviceLimitReached 2,
         ⟨[licRow "K"], [⟨"K", "devA", false, 1, 3⟩, ⟨"K", "devB", false, 2, 4⟩]⟩) :=
  c3_capacity_is_consumable "K" "devA" "devB" "devC" 1 2 3 4 5
    (by decide) (by decide) (by decide) (by decide) (by decide) (by decide) (by decide)

/-! ## C2: idempotent issuance under interleaved delivery -/

/-- The licenses row of the order, once written, never changes. -/
def licStable (s s1 : GenState) : Prop := ∀ k, s.lic = some k → s1.lic = some k

/-- What each program counter guarantees about the shared state. -/
def pcInv : PC → GenState → Prop
  | .start, _ => True
  | .select, _ => True
  | .insert, _ => True
  | .reselect, s => s.lic.isSome
  | .writeMeta k _, s => s.lic = some k
  | .note k _, s => s.lic = some k
  | .done r, s => r.error = none ∧ ∃ k, r.license = some k ∧ s.lic = some k

/-- Shared-state invariant: the meta field never holds a key that is not
the stored row, a fresh order has no inserts yet, and at most one insert
ever commits. -/
def stInv (s : GenState) : Prop :=
  (s.wooMeta = none ∨ s.wooMeta = s.lic) ∧ (s.lic = none → s.insCount = 0) ∧ s.insCount ≤ 1

def cfgInv (c : Cfg) : Prop := stInv c.st ∧ pcInv c.p1 c.st ∧ pcInv c.p2 c.st

lemma stepP_lic_cases (cand : String) (p : PC) (s : GenState) :
    (stepP cand p s).2.lic = s.lic ∨ s.lic = none := by
  cases p with
  | start => cases hm : s.wooMeta <;> simp [stepP, hm]
  | select => cases hl : s.lic <;> simp [stepP, hl]
  | insert => cases hl : s.lic <;> simp [stepP, hl]
  | reselect => cases hl : s.lic <;> simp [stepP, hl]
  | writeMeta k2 r => simp [stepP, writeMetaSt]
  | note k2 r => simp [stepP]
  | done r => simp [stepP]

lemma stepP_licStable (cand : String) (p : PC) (s : GenState) :
    licStable s (stepP cand p s).2 := by
  intro k hk
  rcases stepP_lic_cases cand p s with h | h
  · rw [h, hk]
  · rw [h] at hk; cases hk

lemma pcInv_mono (p : PC) (s s1 : GenState) (h : pcInv p s) (hs : licStable s s1) :
    pcInv p s1 := by
  cases p with
  | start => trivial
  | select => trivial
  | insert => trivial
  | reselect =>
      obtain ⟨k, hk⟩ := Option.isSome_iff_exists.mp h
      exact Option.isSome_iff_exists.mpr ⟨k, hs k hk⟩
  | writeMeta k r => exact hs k h
  | note k r => exact hs k h
  | done r =>
      obtain ⟨he, k, hk, hl⟩ := h
      exact ⟨he, k, hk, hs k hl⟩

lemma stepP_inv (cand : String) (p q : PC) (s : GenState)
    (hst : stInv s) (hp : pcInv p s) (hq : pcInv q s) :
    stInv (stepP cand p s).2 ∧ pcInv (stepP cand p s).1 (stepP cand p s).2
      ∧ pcInv q (stepP cand p s).2 := by
  refine ⟨?_, ?_, pcInv_mono q s _ hq (stepP_licStable cand p s)⟩
  · -- the state invariant survives the step
    cases p with
    | start => cases hm : s.wooMeta <;> simp [stepP, hm, hst]
    | select => cases hl : s.lic <;> simp [stepP, hl, hst]
    | insert =>
        cases hl : s.lic
        · obtain ⟨hmeta, hcnt, _⟩ := hst
          have hm0 : s.wooMeta = none := by
            rcases hmeta with h | h
            · exact h
            · rw [h, hl]
          simp [stepP, hl, stInv, hm0, hcnt hl]
        · simp [stepP, hl, hst]
    | reselect => cases hl : s.lic <;> simp [stepP, hl, hst]
    | writeMeta k r =>
        obtain ⟨hmeta, hcnt, hle⟩ := hst
        have hlic : s.lic = some k := hp
        exact ⟨Or.inr (by simp [stepP, writeMetaSt, hlic]), by simp [stepP, writeMetaSt, hlic],
          by simpa [stepP, writeMetaSt] using hle⟩
    | note k r => simpa [stepP] using hst
    | done r => simpa [stepP] using hst
  · -- the stepped process re-establishes its own invariant
    cases p with
    | start =>
        cases hm : s.wooMeta with
        | none => simp [stepP, hm, pcInv]
        | some m =>
            have hlic : s.lic = some m := by
              rcases hst.1 with h | h
              · rw [hm] at h; cases h
              · rw [hm] at h; exact h.symm
            simp [stepP, hm, pcInv, hlic]
    | select =>
        cases hl : s.lic with
        | none => simp [stepP, hl, pcInv]
        | some k => simp [stepP, hl, pcInv, hl]
    | insert =>
        cases hl : s.lic with
        | none => simp [stepP, hl, pcInv]
        | some k => simp [stepP, hl, pcInv, hl]
    | reselect =>
        cases hl : s.lic with
        | none =>
            have hp2 : s.lic.isSome = true := hp
            rw [hl] at hp2
            simp at hp2
        | some k => simp [stepP, hl, pcInv, hl]
    | writeMeta k r =>
        have hlic : s.lic = some k := hp
        simp [stepP, pcInv, writeMetaSt, hlic]
    | note k r =>
        have hlic : s.lic = some k := hp
        simp [stepP, pcInv, hlic]
    | done r => simpa [stepP, pcInv] using hp

lemma stepCfg_inv (c1 c2 : String) (cfg : Cfg) (b : Bool) (h : cfgInv cfg) :
    cfgInv (stepCfg c1 c2 cfg b) := by
  obtain ⟨hst, hp1, hp2⟩ := h
  cases b with
  | true =>
      obtain ⟨h1, h2, h3⟩ := stepP_inv c1 cfg.p1 cfg.p2 cfg.st hst hp1 hp2
      exact ⟨h1, h2, h3⟩
  | false =>
      obtain ⟨h1, h2, h3⟩ := stepP_inv c2 cfg.p2 cfg.p1 cfg.st hst hp2 hp1
      exact ⟨h1, h3, h2⟩

lemma runSched_inv (c1 c2 : String) (sched : List Bool) (cfg : Cfg) (h : cfgInv cfg) :
    cfgInv (runSched c1 c2 sched cfg) := by
  induction sched generalizing cfg with
  | nil => exact h
  | cons b t ih => exact ih _ (stepCfg_inv c1 c2 cfg b h)

/-- C2: under every interleaving of two deliveries of the same order (the
concurrent-delivery race included: the losing insert hits the order_id
uniqueness violation and re-reads), both handlers finish without error
with the same license key — the key of the single row that exists for the
order — and at most one licenses row was ever inserted. -/
theorem c2_issuance_idempotent (c1 c2 : String) (sched : List Bool)
    (r1 r2 : GenResult) (s : GenState)
    (h : runSched c1 c2 sched initCfg = ⟨.done r1, .done r2, s⟩) :
    r1.error = none ∧ r2.error = none ∧ r1.license = r2.license
      ∧ (∃ k, r1.license = some k ∧ s.lic = some k) ∧ s.insCount ≤ 1 := by
  have hinv := runSched_inv c1 c2 sched initCfg
    ⟨⟨Or.inl rfl, fun _ => rfl, by decide⟩, trivial, trivial⟩
  rw [h] at hinv
  obtain ⟨⟨_, _, hcnt⟩, ⟨he1, k1, hk1, hl1⟩, ⟨he2, k2, hk2, hl2⟩⟩ := hinv
  refine ⟨he1, he2, ?_, ⟨k1, hk1, hl1⟩, hcnt⟩
  rw [hk1, hk2]
  rw [hl1] at hl2
  exact (Option.some_injective _ hl2).symm ▸ rfl

/-- Witness for C2: the first delivery runs to completion, then the second
starts and finds the key in the order meta. -/
theorem c2_witness :
    (⟨false, some "K1", none⟩ : GenResult).error = none
    ∧ (⟨true, some "K1", none⟩ : GenResult).error = none
    ∧ (⟨false, some "K1", none⟩ : GenResult).license = (⟨true, some "K1", none⟩ : GenResult).license
    ∧ (∃ k, (⟨false, some "K1", none⟩ : GenResult).license = some k
        ∧ (⟨some "K1", some "K1", 1⟩ : GenState).lic = some k)
    ∧ (⟨some "K1", some "K1", 1⟩ : GenState).insCount ≤ 1 :=
  c2_issuance_idempotent "K1" "K2" [true, true, true, true, true, false]
    ⟨false, some "K1", none⟩ ⟨true, some "K1", none⟩ ⟨some "K1", some "K1", 1⟩ rfl

/-! ## C7: the key generator and registry collisions -/

lemma makeUniqueKeyAux_spec (ks : Nat → String) (db : List License) :
    ∀ n i,
      (∀ k, makeUniqueKeyAux ks db i n = .ok k →
          db.any (fun l => l.key == k) = false ∧ ∃ j, i ≤ j ∧ j < i + n ∧ ks j = k)
      ∧ (makeUniqueKeyAux ks db i n = .error "could_not_generate_unique_key"
          ↔ ∀ j, i ≤ j → j < i + n → db.any (fun l => l.key == ks j) = true) := by
  intro n
  induction n with
  | zero =>
      intro i
      constructor
      · intro k hk
        simp [makeUniqueKeyAux] at hk
      · constructor
        · intro _ j hij hji
          omega
        · intro _
          rfl
  | succ n ih =>
      intro i
      constructor
      · intro k hk
        by_cases hcol : db.any (fun l => l.key == ks i) = true
        · rw [show makeUniqueKeyAux ks db i (n + 1)
              = makeUniqueKeyAux ks db (i + 1) n from by simp [makeUniqueKeyAux, hcol]] at hk
          obtain ⟨hfree, j, hij, hji, hjk⟩ := (ih (i + 1)).1 k hk
          exact ⟨hfree, j, by omega, by omega, hjk⟩
        · rw [show makeUniqueKeyAux ks db i (n + 1) = .ok (ks i) from by
              simp [makeUniqueKeyAux, hcol]] at hk
          obtain rfl : ks i = k := by injection hk
          exact ⟨by simpa using hcol, i, le_refl i, by omega, rfl⟩
      · by_cases hcol : db.any (fun l => l.key == ks i) = true
        · rw [show makeUniqueKeyAux ks db i (n + 1)
              = makeUniqueKeyAux ks db (i + 1) n from by simp [makeUniqueKeyAux, hcol]]
          rw [(ih (i + 1)).2]
          constructor
          · intro hall j hij hji
            rcases Nat.eq_or_lt_of_le hij with rfl | hlt
            · exact hcol
            · exact hall j hlt (by omega)
          · intro hall j hij hji
            exact hall j (by omega) (by omega)
        · rw [show makeUniqueKeyAux ks db i (n + 1) = .ok (ks i) from by
              simp [makeUniqueKeyAux, hcol]]
          constructor
          · intro hk
            cases hk
          · intro hall
            exact absurd (hall i (le_refl i) (by omega)) hcol

/-- Amended C7 for the makeUniqueKey variant (src/unnamed/part_002): a key
it returns is collision-free against the licenses table and comes from one
of its first 6 candidate draws, and it fails with
could_not_generate_unique_key exactly when all 6 draws collide; the
function reads the table and never inserts (it does not touch the table by
construction). -/
theorem c7_key_generator_bounded_retry (ks : Nat → String) (db : List License) :
    (∀ k, makeUniqueKey ks db = .ok k →
        db.any (fun l => l.key == k) = false ∧ ∃ j, j < 6 ∧ ks j = k)
    ∧ (makeUniqueKey ks db = .error "could_not_generate_unique_key"
        ↔ ∀ j, j < 6 → db.any (fun l => l.key == ks j) = true) := by
  have h := makeUniqueKeyAux_spec ks db 6 0
  constructor
  · intro k hk
    obtain ⟨hfree, j, _, hji, hjk⟩ := h.1 k hk
    exact ⟨hfree, j, by omega, hjk⟩
  · rw [show makeUniqueKey ks db = makeUniqueKeyAux ks db 0 6 from rfl, h.2]
    constructor
    · intro hall j hj
      exact hall j (Nat.zero_le j) (by omega)
    · intro hall j _ hj
      exact hall j (by omega)

/-- Witness for C7: a candidate stream whose first six draws all collide
with the registry makes makeUniqueKey fail with the exhaustion error. -/
theorem c7_witness :
    makeUniqueKey (fun _ => "JMNX-VMIX-AAAA-BBBB-CCCC")
        [⟨"JMNX-VMIX-AAAA-BBBB-CCCC", "active", "full", 2, some 1, none, none⟩]
      = .error "could_not_generate_unique_key" :=
  (c7_key_generator_bounded_retry (fun _ => "JMNX-VMIX-AAAA-BBBB-CCCC")
    [⟨"JMNX-VMIX-AAAA-BBBB-CCCC", "active", "full", 2, some 1, none, none⟩]).2.mpr
    (by decide)

/-- Counterexample to C7 as stated: the deployed generate.js key path draws
one candidate with no registry check.  With a registry already holding the
candidate equal to a key that another order owns, the handler performs no retry and raises
no key_generation_exhausted error: the insert hits the uniqueness
violation, the re-read by order_id finds nothing, and the handler reports
success with the colliding key while the table is left without any row for
the order. -/
theorem c7_counterexample :
    ensureLicenseForOrderDB 2 "VMIX-2025-AAAA-BBBB"
        [⟨"VMIX-2025-AAAA-BBBB", "active", "full", 2, some 1, none, none⟩]
      = (⟨false, some "VMIX-2025-AAAA-BBBB", none⟩,
         [⟨"VMIX-2025-AAAA-BBBB", "active", "full", 2, some 1, none, none⟩]) := by
  decide

/-! ## C8: the verify read path -/

/-- Counterexample to C8 as stated: the deployed verify.js answers a
non-active license with reason "inactive", not "revoked" (and its valid
answer carries no devices_used at all). -/
theorem c8_counterexample :
    (verifyNetlify ⟨[⟨"K", "revoked", "full", 2, none, none, none⟩], []⟩ "K" 0).reason
        = some "inactive"
    ∧ (verifyNetlify ⟨[⟨"K", "revoked", "full", 2, none, none, none⟩], []⟩ "K" 0).reason
        ≠ some "revoked" := by
  decide

/-- Amended C8, which holds of the part_006 verify handler: it is pure
(read-only by construction), an unknown key answers not_found, a non-active
status answers revoked, and an active license answers valid with plan,
status, max_devices and devices_used equal to the distinct count of
device_ids ever activated for the key. -/
theorem c8_verify_read_path (db : DB) (keyRaw : String) (lic : License)
    (hk : jsTrim keyRaw ≠ "") :
    (licByKey db (jsTrim keyRaw) = none → verifyLedger db keyRaw = .notFound)
    ∧ (licByKey db (jsTrim keyRaw) = some lic → lic.status ≠ "active" →
        verifyLedger db keyRaw = .revoked)
    ∧ (licByKey db (jsTrim keyRaw) = some lic → lic.status = "active" →
        verifyLedger db keyRaw
          = .valid lic.plan "active" lic.max_devices (distinctDevices db (jsTrim keyRaw))) := by
  refine ⟨?_, ?_, ?_⟩
  · intro hnone
    simp [verifyLedger, hk, hnone]
  · intro hsome hstatus
    simp [verifyLedger, hk, hsome, hstatus]
  · intro hsome hstatus
    simp [verifyLedger, hk, hsome, hstatus]

/-- Witness for C8 on a concrete store: the key arrives with stray
whitespace, the license is active with cap 2, and two distinct devices
(one of them deactivated) have ever activated. -/
theorem c8_witness :
    (licByKey ⟨[⟨"K", "active", "full", 2, none, none, none⟩],
        [⟨"K", "A", false, 1, 1⟩, ⟨"K", "B", true, 2, 2⟩]⟩ (jsTrim " K ")
      = some ⟨"K", "active", "full", 2, none, none, none⟩)
    ∧ verifyLedger ⟨[⟨"K", "active", "full", 2, none, none, none⟩],
        [⟨"K", "A", false, 1, 1⟩, ⟨"K", "B", true, 2, 2⟩]⟩ " K "
      = .valid "full" "active" 2
          (distinctDevices ⟨[⟨"K", "active", "full", 2, none, none, none⟩],
            [⟨"K", "A", false, 1, 1⟩, ⟨"K", "B", true, 2, 2⟩]⟩ (jsTrim " K ")) :=
  ⟨by decide,
   (c8_verify_read_path ⟨[⟨"K", "active", "full", 2, none, none, none⟩],
      [⟨"K", "A", false, 1, 1⟩, ⟨"K", "B", true, 2, 2⟩]⟩ " K "
      ⟨"K", "active", "full", 2, none, none, none⟩ (by decide)).2.2 (by decide) rfl⟩

/-! ## The signature gate: C10, C6 and the functional content of C5 -/

/-- C10: a POST to /generate whose signature header is missing or does not
equal the HMAC the code expects is answered with HTTP 200 and
{ok:true, ignored:bad_signature}, and the handler performs no state
change at all — no issuance, no datastore write, no write-back. -/
theorem c10_bad_signature_acknowledged_as_success (parse : String → Option WooPayload)
    (cand : String) (secretEnv : Option String) (sigHeader : Option String)
    (body : String) (s : GenState)
    (h : sigHeader = none
        ∨ ∀ t, sigHeader = some t →
            t ≠ hmacBase64 (strBytes (secretEnv.getD "")) (strBytes body)) :
    generateHandlerPost parse cand secretEnv sigHeader body s
      = (⟨200, true, some "bad_signature", false, none, none, none⟩, s) := by
  have hv : generateVerify secretEnv sigHeader body = false := by
    rcases h with h | h
    · rw [h]; rfl
    · cases sigHeader with
      | none => rfl
      | some t =>
          have ht := h t rfl
          by_cases he : t = ""
          · simp [generateVerify, he]
          · simp [generateVerify, he, beq_eq_false_iff_ne.mpr (Ne.symm ht)]
  simp [generateHandlerPost, hv]

/-- Witness for C10: no signature header at all. -/
theorem c10_witness :
    generateHandlerPost (fun _ => none) "K" (some "topsecret") none "order7" ⟨none, none, 0⟩
      = (⟨200, true, some "bad_signature", false, none, none, none⟩, ⟨none, none, 0⟩) :=
  c10_bad_signature_acknowledged_as_success (fun _ => none) "K" (some "topsecret") none
    "order7" ⟨none, none, 0⟩ (Or.inl rfl)

set_option maxRecDepth 1000000 in
/-- C6 as the code actually behaves: with WC_WEBHOOK_SECRET unset the
handler falls back to the empty-string HMAC key (WC_WEBHOOK_SECRET || ""),
so a signature anyone can compute without any secret passes the gate and a
license is issued (one row inserted); and a request the gate does reject is
answered 200 {ok:true, ignored:bad_signature}, never a 500-class
misconfiguration refusal. -/
theorem c6_unset_secret_is_bypassed :
    generateVerify none (some (hmacBase64 (strBytes "") (strBytes "order7"))) "order7" = true
    ∧ generateHandlerPost (fun _ => some ⟨7, "completed"⟩) "VMIX-2025-QQQQ-WWWW" none
        (some (hmacBase64 (strBytes "") (strBytes "order7"))) "order7" ⟨none, none, 0⟩
        = (⟨200, true, none, false, none, some false, some "VMIX-2025-QQQQ-WWWW"⟩,
           ⟨some "VMIX-2025-QQQQ-WWWW", some "VMIX-2025-QQQQ-WWWW", 1⟩)
    ∧ generateHandlerPost (fun _ => some ⟨7, "completed"⟩) "VMIX-2025-QQQQ-WWWW" none
        none "order7" ⟨none, none, 0⟩
        = (⟨200, true, some "bad_signature", false, none, none, none⟩, ⟨none, none, 0⟩) := by
  decide

/-- Functional content of the signature check in generate.js: a present,
non-empty header authenticates exactly when it equals the base64 HMAC of
the raw body under the configured secret. -/
theorem generateVerify_iff (secretEnv : Option String) (t body : String) (ht : t ≠ "") :
    generateVerify secretEnv (some t) body = true
      ↔ t = hmacBase64 (strBytes (secretEnv.getD "")) (strBytes body) := by
  show (if t = "" then false
        else hmacBase64 (strBytes (secretEnv.getD "")) (strBytes body) == t) = true
      ↔ t = hmacBase64 (strBytes (secretEnv.getD "")) (strBytes body)
  rw [if_neg ht, beq_iff_eq]
  exact eq_comm

/-- A tampered body fails verification whenever its MAC differs from the
MAC of the body the supplied signature was computed over (the cryptographic
collision-freeness of HMAC-SHA256 is exactly what this hypothesis
imports). -/
theorem generateVerify_tampered (secret body body1 : String)
    (hdiff : hmacBase64 (strBytes secret) (strBytes body1)
        ≠ hmacBase64 (strBytes secret) (strBytes body)) :
    generateVerify (some secret) (some (hmacBase64 (strBytes secret) (strBytes body))) body1
      = false := by
  by_cases he : hmacBase64 (strBytes secret) (strBytes body) = ""
  · simp [generateVerify, he]
  · simp [generateVerify, he, beq_eq_false_iff_ne.mpr hdiff]

end Mixer
